import Mathlib

/-!
Shallow embedding of `check-apple-inventory.js` (Apple refurbished-store
scanner).  Strings are modelled as `List Char`; the ambient clock and every
external interaction (the storefront HTTP response, each webhook POST's
outcome) are explicit parameters.  Regular-expression searches from the
source are modelled either by a small backtracking token matcher with
JavaScript semantics (greedy/lazy ordering) or, where the pattern is
deterministic, by direct scanning functions.
-/

namespace AppleInv

/-- ASCII lowercasing of one character, modelling `String.prototype.toLowerCase`
on the ASCII identifiers this program searches for. -/
def lowerChar (c : Char) : Char := c.toLower

/-- `toLowerCase()` over a whole body. -/
def lowerList (s : List Char) : List Char := s.map lowerChar

/-- JavaScript line terminators: the characters NOT matched by `.` in a regex
without the `s` flag (U+000A, U+000D, U+2028, U+2029). -/
def isLineTerm (c : Char) : Bool := [10, 13, 8232, 8233].contains c.toNat

/-- JavaScript `\s` / `trim()` whitespace class (WhiteSpace ∪ LineTerminator). -/
def isJsWhitespace (c : Char) : Bool :=
  [9, 10, 11, 12, 13, 32, 160, 5760, 8192, 8193, 8194, 8195, 8196, 8197, 8198,
   8199, 8200, 8201, 8202, 8232, 8233, 8239, 8287, 12288, 65279].contains c.toNat

/-- `String.prototype.includes`: `p` occurs as a contiguous substring of the
argument (also tried at the empty final position, as a regex scan would). -/
def containsSub (p : List Char) : List Char → Bool
  | [] => p.isPrefixOf []
  | s@(_ :: rest) => p.isPrefixOf s || containsSub p rest

/-- `.*?b` at the current position: `b` after a (lazy) gap of non-line-terminator
characters, as in the body of `/MacBook Air.*?M4|M4.*?MacBook Air/i`. -/
def gapThen (b : List Char) : List Char → Bool
  | [] => b.isPrefixOf []
  | s@(c :: rest) => b.isPrefixOf s || (!isLineTerm c && gapThen b rest)

/-- `a.*?b` anywhere in the text: `a` at some position, then `b` after a gap of
non-line-terminator characters. -/
def seqGap (a b : List Char) : List Char → Bool
  | [] => a.isPrefixOf [] && gapThen b []
  | s@(_ :: rest) => (a.isPrefixOf s && gapThen b (s.drop a.length)) || seqGap a b rest

/-- The test `html.match(/MacBook Air.*?M4|M4.*?MacBook Air/gi)` returned a
non-empty array, evaluated on the lowercased body (the `i` flag). -/
def m4RegexTest (low : List Char) : Bool :=
  seqGap "macbook air".toList "m4".toList low ||
  seqGap "m4".toList "macbook air".toList low

/-- `a` at some position followed, after further characters of the same
character class, by `b` (the `([^<]*MacBook Air[^<]*M4[^<]*)` group). -/
def seqContains (a b : List Char) : List Char → Bool
  | [] => a.isPrefixOf [] && containsSub b []
  | s@(_ :: rest) => (a.isPrefixOf s && containsSub b (s.drop a.length)) || seqContains a b rest

/-- Split a string at the first occurrence of `c`: returns the (c-free) run
before it and the rest beginning with `c`; `none` when `c` does not occur. -/
def splitAtChar (c : Char) : List Char → Option (List Char × List Char)
  | [] => none
  | x :: rest =>
    if x = c then some ([], x :: rest)
    else
      match splitAtChar c rest with
      | some (a, b) => some (x :: a, b)
      | none => none

/-- Try a position-wise matcher at every start position, leftmost first
(including the empty suffix), as a regex `match` scan does. -/
def scanFor {α : Type} (f : List Char → Option α) : List Char → Option α
  | [] => f []
  | s@(_ :: rest) =>
    match f s with
    | some a => some a
    | none => scanFor f rest

/-- `/<hN[^>]*>([^<]+)<\/hN>/` (case-sensitive) tried at one position: the open
tag, a greedy run of non-`>` then `>`, a non-empty capture of non-`<`
characters, and the close tag immediately after.  For this pattern JavaScript
backtracking is deterministic: both character classes exclude the character
that must follow them. -/
def matchTagAt (openTag closeTag : List Char) (s : List Char) : Option (List Char) :=
  if openTag.isPrefixOf s then
    match splitAtChar '>' (s.drop openTag.length) with
    | some (_, _ :: afterGt) =>
      match splitAtChar '<' afterGt with
      | some (cap, tail) =>
        if cap.isEmpty then none
        else if closeTag.isPrefixOf tail then some cap else none
      | none => none
    | _ => none
  else none

/-- `/attr"([^"]*MacBook Air[^"]*)"/` (case-sensitive) tried at one position,
for `attr` = `title="` or `alt="`: the capture is the full run up to the next
quote and must contain `MacBook Air`. -/
def matchAttrAt (attr : List Char) (s : List Char) : Option (List Char) :=
  if attr.isPrefixOf s then
    match splitAtChar '"' (s.drop attr.length) with
    | some (cap, _) => if containsSub "MacBook Air".toList cap then some cap else none
    | none => none
  else none

/-- `/>([^<]*MacBook Air[^<]*M4[^<]*)</` (case-sensitive) tried at one
position: the capture is the full run between a `>` and the next `<` and must
contain `MacBook Air` followed by `M4`. -/
def matchGtTextAt (s : List Char) : Option (List Char) :=
  match s with
  | '>' :: rest =>
    match splitAtChar '<' rest with
    | some (cap, _) =>
      if seqContains "MacBook Air".toList "M4".toList cap then some cap else none
    | none => none
  | _ => none

/-- One alternative of `/¥[\d,]+|￥[\d,]+/` or of `/\$[\d,]+/` tried at one
position: the currency symbol followed by a non-empty greedy run of digits and
commas; the whole match (`match[0]`) is returned. -/
def matchPriceAt (sym : Char) : List Char → Option (List Char)
  | [] => none
  | c :: rest =>
    if c = sym then
      let run := rest.takeWhile (fun d => d.isDigit || d == ',')
      if run.isEmpty then none else some (c :: run)
    else none

/-- `/¥[\d,]+|￥[\d,]+/` tried at one position (alternatives in order). -/
def matchYenAt (s : List Char) : Option (List Char) :=
  match matchPriceAt '¥' s with
  | some p => some p
  | none => matchPriceAt '￥' s

/-- The title-extraction chain of the section loop:
`match(h3) || match(h4) || match(title=") || match(alt=") || match(>text<)`. -/
def titleSearch (sec : List Char) : Option (List Char) :=
  match scanFor (matchTagAt "<h3".toList "</h3>".toList) sec with
  | some cap => some cap
  | none =>
    match scanFor (matchTagAt "<h4".toList "</h4>".toList) sec with
    | some cap => some cap
    | none =>
      match scanFor (matchAttrAt "title=\"".toList) sec with
      | some cap => some cap
      | none =>
        match scanFor (matchAttrAt "alt=\"".toList) sec with
        | some cap => some cap
        | none => scanFor matchGtTextAt sec

/-- `titleMatch ? titleMatch[1].trim() : 'M4 MacBook Air'`. -/
def titleOf (sec : List Char) : List Char :=
  match titleSearch sec with
  | some cap => ((cap.dropWhile isJsWhitespace).reverse.dropWhile isJsWhitespace).reverse
  | none => "M4 MacBook Air".toList

/-- `priceMatch ? priceMatch[0] : 'Price not found'` where
`priceMatch = match(/¥[\d,]+|￥[\d,]+/) || match(/\$[\d,]+/)`. -/
def priceOf (sec : List Char) : List Char :=
  match scanFor matchYenAt sec with
  | some p => p
  | none =>
    match scanFor (matchPriceAt '$') sec with
    | some p => p
    | none => "Price not found".toList

/-- `title.replace(/\s+/g, ' ')`: collapse each maximal whitespace run to a
single space (the flag records whether the previous character was whitespace). -/
def collapseWsAux : Bool → List Char → List Char
  | _, [] => []
  | prevWs, c :: rest =>
    if isJsWhitespace c then
      if prevWs then collapseWsAux true rest else ' ' :: collapseWsAux true rest
    else c :: collapseWsAux false rest

/-- `title.replace(/\s+/g, ' ')` on a whole string. -/
def collapseWs (s : List Char) : List Char := collapseWsAux false s

/-- The transient match-result entity: best-effort title and price plus the
run's timestamp (`new Date().toISOString()`, passed in as `now`). -/
structure Product where
  title : List Char
  price : List Char
  timestamp : List Char
  deriving DecidableEq, Repr

/-- One `availableProducts.push({...})` of the section loop. -/
def mkProduct (sec now : List Char) : Product :=
  { title := collapseWs (titleOf sec), price := priceOf sec, timestamp := now }

/-- The section condition:
`(sectionHtml.toLowerCase().includes('m4') || sectionHtml.includes('M4')) &&
 sectionHtml.toLowerCase().includes('macbook air')`. -/
def sectionCond (sec : List Char) : Bool :=
  (containsSub "m4".toList (lowerList sec) || containsSub "M4".toList sec) &&
  containsSub "macbook air".toList (lowerList sec)

/-- Token alphabet for the backtracking regex matcher: a literal, a greedy
`[^c]*`, or a lazy `[\s\S]*?`. -/
inductive Tok where
  | lit (pat : List Char)
  | notCh (c : Char)
  | anyLazy
  deriving DecidableEq, Repr

/-- Fueled backtracking matcher with JavaScript disambiguation: a greedy class
prefers consuming (longest first, backtracking on failure of the rest); a lazy
class prefers the continuation first.  Returns the remainder of the input
after the match.  The fuel only bounds recursion depth; `runToks` supplies
enough for any input. -/
def matchToksF : Nat → List Tok → List Char → Option (List Char)
  | 0, _, _ => none
  | Nat.succ fuel, ts0, s =>
    match ts0 with
    | [] => some s
    | Tok.lit p :: ts => if p.isPrefixOf s then matchToksF fuel ts (s.drop p.length) else none
    | Tok.notCh c :: ts =>
      match s with
      | [] => matchToksF fuel ts []
      | x :: rest =>
        if x == c then matchToksF fuel ts (x :: rest)
        else
          match matchToksF fuel (Tok.notCh c :: ts) rest with
          | some r => some r
          | none => matchToksF fuel ts (x :: rest)
    | Tok.anyLazy :: ts =>
      match matchToksF fuel ts s with
      | some r => some r
      | none =>
        match s with
        | [] => none
        | _ :: rest => matchToksF fuel (Tok.anyLazy :: ts) rest

/-- Run the token matcher with sufficient fuel (every recursive step strictly
decreases `2*|s| + 2*|ts|`, so this depth is never exhausted). -/
def runToks (ts : List Tok) (s : List Char) : Option (List Char) :=
  matchToksF (2 * s.length + 2 * ts.length + 4) ts s

/-- Leftmost regex search from an index: first start position (scanning left
to right) where the whole token list matches; returns (start, length). -/
def execAux (ts : List Tok) : List Char → Nat → Option (Nat × Nat)
  | [], i =>
    match runToks ts [] with
    | some _ => some (i, 0)
    | none => none
  | s@(_ :: rest), i =>
    match runToks ts s with
    | some r => some (i, s.length - r.length)
    | none => execAux ts rest (i + 1)

/-- `matchAll` with the `g` flag: repeatedly take the leftmost match and resume
after it (advancing at least one character), slicing matches out of the
original-case text while matching on the lowercased text (the `i` flag). -/
def matchAllAux (ts : List Tok) : List Char → List Char → Nat → List (List Char)
  | _, _, 0 => []
  | orig, low, Nat.succ fuel =>
    match execAux ts low 0 with
    | none => []
    | some (i, n) =>
      ((orig.drop i).take n) ::
        matchAllAux ts (orig.drop (i + max n 1)) (low.drop (i + max n 1)) fuel

/-- Token form of `/<div[^>]*class="[^"]*refurb[^"]*"[^>]*>[\s\S]*?<\/div>/gi`
(literals lowercased; the text side is lowercased before matching). -/
def sectionToks : List Tok :=
  [Tok.lit "<div".toList, Tok.notCh '>', Tok.lit "class=\"".toList, Tok.notCh '"',
   Tok.lit "refurb".toList, Tok.notCh '"', Tok.lit "\"".toList, Tok.notCh '>',
   Tok.lit ">".toList, Tok.anyLazy, Tok.lit "</div>".toList]

/-- `[...html.matchAll(productSectionRegex)]`: the refurb product sections. -/
def sectionsOf (html : List Char) : List (List Char) :=
  matchAllAux sectionToks html (lowerList html) (html.length + 1)

/-- The products pushed by the section loop, guarded by the step-1 regex test
(`if (matches && matches.length > 0)`). -/
def structuredProducts (html now : List Char) : List Product :=
  if m4RegexTest (lowerList html) then
    ((sectionsOf html).filter sectionCond).map (fun sec => mkProduct sec now)
  else []

/-- The placeholder pushed when only the plain text mention was found:
`{title: 'M4 MacBook Air (detected)', price: 'Check website for price'}`. -/
def placeholderProduct (now : List Char) : Product :=
  { title := "M4 MacBook Air (detected)".toList
    price := "Check website for price".toList
    timestamp := now }

/-- Lowercased literal part of `/"productTitle":\s*"(...)"/gi`. -/
def pdPattern : List Char := "\"producttitle\":".toList

/-- `/"productTitle":\s*"([^"]*MacBook Air[^"]*)"/i` tried at one position:
the literal, a greedy whitespace run, the opening quote, then the capture up
to the closing quote, which must contain `macbook air` (case-insensitively).
Returns the original-case capture and the total match length. -/
def pdMatchAt (orig low : List Char) : Option (List Char × Nat) :=
  if pdPattern.isPrefixOf low then
    let l1 := low.drop pdPattern.length
    let o1 := orig.drop pdPattern.length
    let wsLen := (l1.takeWhile isJsWhitespace).length
    match l1.drop wsLen with
    | '"' :: lrest =>
      match splitAtChar '"' lrest with
      | some (lcap, _) =>
        if containsSub "macbook air".toList lcap then
          some (((o1.drop wsLen).drop 1).take lcap.length,
                pdPattern.length + wsLen + 1 + lcap.length + 1)
        else none
      | none => none
    | _ => none
  else none

/-- `matchAll` iteration for the product-title pattern. -/
def pdScan : List Char → List Char → Nat → List (List Char)
  | _, _, 0 => []
  | orig, low, Nat.succ fuel =>
    match pdMatchAt orig low with
    | some (cap, len) => cap :: pdScan (orig.drop len) (low.drop len) fuel
    | none =>
      match orig, low with
      | _ :: orest, _ :: lrest => pdScan orest lrest fuel
      | _, _ => []

/-- `m4Products`: the captures of the product-title search kept by the filter
`match[1].toLowerCase().includes('m4') || match[1].includes('M4')`.  The
source computes this list and never reads it again. -/
def m4Products (html : List Char) : List (List Char) :=
  (pdScan html (lowerList html) (html.length + 1)).filter
    (fun t => containsSub "m4".toList (lowerList t) || containsSub "M4".toList t)

/-- The Matcher: the final value of the source's `availableProducts` variable,
for a fetched body `html` and run timestamp `now`.  The `_m4Products` binding
mirrors the source's unused `m4Products` computation. -/
def availableProducts (html now : List Char) : List Product :=
  let _m4Products := m4Products html
  if containsSub "m4".toList (lowerList html) && containsSub "macbook air".toList (lowerList html) then
    if (structuredProducts html now).isEmpty then [placeholderProduct now]
    else structuredProducts html now
  else structuredProducts html now

/-- The same Matcher with the structured product-title search removed (for the
refinement comparison). -/
def availableProductsSansProductData (html now : List Char) : List Product :=
  if containsSub "m4".toList (lowerList html) && containsSub "macbook air".toList (lowerList html) then
    if (structuredProducts html now).isEmpty then [placeholderProduct now]
    else structuredProducts html now
  else structuredProducts html now

/-! ## The run: Fetcher, Notifier, and the top-level control flow -/

/-- What the outside world does with the storefront GET: a response (status,
status message, accumulated body) or a transport-level failure. -/
inductive FetchOutcome where
  | response (status : Nat) (statusMessage : List Char) (body : List Char)
  | transportError (message : List Char)
  deriving DecidableEq, Repr

/-- The message of `new Error('HTTP <status>: <statusMessage>')`. -/
def httpErrorMsg (status : Nat) (statusMessage : List Char) : List Char :=
  "HTTP ".toList ++ (toString status).toList ++ ": ".toList ++ statusMessage

/-- `fetchUrl`: resolves with the body, unless the status is not 200
(`if (res.statusCode !== 200) reject`) or the request errored. -/
def fetchUrl : FetchOutcome → Except (List Char) (List Char)
  | FetchOutcome.response status sm body =>
    if status ≠ 200 then Except.error (httpErrorMsg status sm) else Except.ok body
  | FetchOutcome.transportError m => Except.error m

/-- The notification-relevant environment variables:
`DISCORD_WEBHOOK_URL`, `EMAIL_API_KEY`, `EMAIL_TO`. -/
structure Env where
  discordWebhookUrl : Option (List Char)
  emailApiKey : Option (List Char)
  emailTo : Option (List Char)
  deriving DecidableEq, Repr

/-- What the outside world does with one webhook POST. -/
inductive PostOutcome where
  | response (status : Nat) (body : List Char)
  | netError (message : List Char)
  deriving DecidableEq, Repr

/-- Observable side effects of a run: console lines and outbound POSTs. -/
inductive Effect where
  | log (line : List Char)
  | post (url : List Char) (content : List Char)
  deriving DecidableEq, Repr

/-- Whether an effect is an outbound POST. -/
def Effect.isPost : Effect → Bool
  | Effect.post _ _ => true
  | Effect.log _ => false

/-- Content of the Discord success message (the found-at clock value is the
`timeStr` parameter). -/
def discordContent (products : List Product) (timeStr : List Char) : List Char :=
  "🍎 **M4 MacBook Air Available in Japan!** 🍎\n\n".toList ++
  List.intercalate ['\n']
    (products.map (fun p => "**".toList ++ p.title ++ "** - ".toList ++ p.price)) ++
  "\n\n🔗 **Check now:** https://www.apple.com/jp/shop/refurbished/mac/macbook-air\n\n⏰ Found at: ".toList ++
  timeStr ++ " JST".toList

/-- `sendDiscordNotification`: POSTs the message; resolves on a 2xx response,
rejects (with the status) on any other status, rejects with the cause on a
request error; each case logs. -/
def sendDiscordNotification (url : List Char) (products : List Product)
    (timeStr : List Char) (outcome : PostOutcome) :
    List Effect × Except (List Char) Unit :=
  let content := discordContent products timeStr
  match outcome with
  | PostOutcome.response status _ =>
    if 200 ≤ status && status < 300 then
      ([Effect.post url content, Effect.log "✅ Discord notification sent successfully".toList],
       Except.ok ())
    else
      ([Effect.post url content, Effect.log "❌ Discord notification failed:".toList],
       Except.error ("Discord webhook failed: ".toList ++ (toString status).toList))
  | PostOutcome.netError m =>
    ([Effect.post url content, Effect.log "❌ Discord notification error:".toList],
     Except.error m)

/-- The log line of the email placeholder channel. -/
def emailWouldSendLog : List Char := "📧 Email notification would be sent here".toList

/-- `sendEmailNotification`: a placeholder that only logs; it never POSTs and
never rejects. -/
def sendEmailNotification (products : List Product) : List Effect × Except (List Char) Unit :=
  let _products := products
  ([Effect.log emailWouldSendLog, Effect.log "Products:".toList], Except.ok ())

/-- The log line printed when no notification channel is configured. -/
def noMethodsLog : List Char := "⚠️  No notification methods configured".toList

/-- `sendNotification`: starts the Discord promise when `DISCORD_WEBHOOK_URL`
is set and the email promise when both email variables are set (so both run
regardless of the other), logs and resolves when neither is configured, and
otherwise awaits `Promise.all`: the effects of every started channel occur,
and the result is the first rejection if any. -/
def sendNotification (env : Env) (products : List Product) (timeStr : List Char)
    (discordOutcome : PostOutcome) : List Effect × Except (List Char) Unit :=
  match env.discordWebhookUrl, env.emailApiKey.isSome && env.emailTo.isSome with
  | none, false => ([Effect.log noMethodsLog], Except.ok ())
  | some url, false => sendDiscordNotification url products timeStr discordOutcome
  | none, true => sendEmailNotification products
  | some url, true =>
    let d := sendDiscordNotification url products timeStr discordOutcome
    let e := sendEmailNotification products
    (d.1 ++ e.1,
     match d.2, e.2 with
     | Except.ok _, Except.ok _ => Except.ok ()
     | Except.error m, _ => Except.error m
     | _, Except.error m => Except.error m)

/-- Content of the error-path Discord message. -/
def errorContent (errorMessage nowIso : List Char) : List Char :=
  "⚠️ **Apple Monitor Error** ⚠️\n\n**Error:** ".toList ++ errorMessage ++
  "\n**Time:** ".toList ++ nowIso ++
  "\n\n*Check the GitHub Actions logs for more details.*".toList

/-- `sendErrorNotification`: does nothing when `DISCORD_WEBHOOK_URL` is unset;
otherwise POSTs the error message and logs; any failure of that POST is caught
and only logged — this function never propagates an error. -/
def sendErrorNotification (env : Env) (errorMessage nowIso : List Char)
    (outcome : PostOutcome) : List Effect :=
  match env.discordWebhookUrl with
  | none => []
  | some url =>
    match outcome with
    | PostOutcome.response _ _ =>
      [Effect.post url (errorContent errorMessage nowIso),
       Effect.log "✅ Error notification sent".toList]
    | PostOutcome.netError _ =>
      [Effect.post url (errorContent errorMessage nowIso),
       Effect.log "❌ Failed to send error notification:".toList]

/-- Observable summary of one `checkAppleInventory()` run. -/
structure RunResult where
  effects : List Effect
  exitCode : Nat
  products : List Product
  successNotifierInvoked : Bool
  errorNotifierInvoked : Bool
  errorMessage : Option (List Char)
  deriving DecidableEq, Repr

/-- `checkAppleInventory`: fetch, match, and notify inside one `try`; any
rejection (fetch failure, or a success-notification failure propagating out of
`Promise.all`) reaches the `catch`, which calls `sendErrorNotification` and
`process.exit(1)`.  A run that completes the `try` exits 0 whether or not
products were found. -/
def checkAppleInventory (env : Env) (fetch : FetchOutcome)
    (discordOutcome errOutcome : PostOutcome) (now nowIso : List Char) : RunResult :=
  match fetchUrl fetch with
  | Except.error msg =>
    { effects := sendErrorNotification env msg nowIso errOutcome
      exitCode := 1
      products := []
      successNotifierInvoked := false
      errorNotifierInvoked := true
      errorMessage := some msg }
  | Except.ok html =>
    let products := availableProducts html now
    if products.isEmpty then
      { effects := [], exitCode := 0, products := products
        successNotifierInvoked := false, errorNotifierInvoked := false
        errorMessage := none }
    else
      match sendNotification env products now discordOutcome with
      | (effs, Except.ok _) =>
        { effects := effs, exitCode := 0, products := products
          successNotifierInvoked := true, errorNotifierInvoked := false
          errorMessage := none }
      | (effs, Except.error msg) =>
        { effects := effs ++ sendErrorNotification env msg nowIso errOutcome
          exitCode := 1, products := products
          successNotifierInvoked := true, errorNotifierInvoked := true
          errorMessage := some msg }

/-! ## Helper lemmas about the substring searches -/

theorem containsSub_of_isPrefixOf {p s : List Char} (h : p.isPrefixOf s = true) :
    containsSub p s = true := by
  cases s with
  | nil => exact h
  | cons a t => simp [containsSub, h]

theorem containsSub_cons {p : List Char} (c : Char) {s : List Char}
    (h : containsSub p s = true) : containsSub p (c :: s) = true := by
  simp [containsSub, h]

theorem containsSub_of_drop {p : List Char} :
    ∀ (s : List Char) (n : Nat), containsSub p (s.drop n) = true → containsSub p s = true
  | _, 0, h => h
  | [], _ + 1, h => h
  | c :: t, n + 1, h => containsSub_cons c (containsSub_of_drop t n h)

theorem containsSub_append_left {p s : List Char} (x : List Char)
    (h : containsSub p s = true) : containsSub p (x ++ s) = true := by
  induction x with
  | nil => exact h
  | cons a t ih => exact containsSub_cons a ih

theorem containsSub_of_gapThen {b : List Char} :
    ∀ (s : List Char), gapThen b s = true → containsSub b s = true
  | [], h => h
  | c :: t, h => by
    simp only [gapThen, Bool.or_eq_true, Bool.and_eq_true] at h
    rcases h with h1 | ⟨_, h2⟩
    · exact containsSub_of_isPrefixOf h1
    · exact containsSub_cons c (containsSub_of_gapThen t h2)

theorem seqGap_contains {a b : List Char} :
    ∀ (s : List Char), seqGap a b s = true →
      containsSub a s = true ∧ containsSub b s = true
  | [], h => by
    simp only [seqGap, Bool.and_eq_true] at h
    exact ⟨containsSub_of_isPrefixOf h.1, containsSub_of_gapThen [] h.2⟩
  | c :: t, h => by
    simp only [seqGap, Bool.or_eq_true, Bool.and_eq_true] at h
    rcases h with ⟨h1, h2⟩ | h3
    · exact ⟨containsSub_of_isPrefixOf h1,
        containsSub_of_drop (c :: t) a.length (containsSub_of_gapThen _ h2)⟩
    · obtain ⟨ih1, ih2⟩ := seqGap_contains t h3
      exact ⟨containsSub_cons c ih1, containsSub_cons c ih2⟩

theorem m4RegexTest_contains {low : List Char} (h : m4RegexTest low = true) :
    containsSub "m4".toList low = true ∧ containsSub "macbook air".toList low = true := by
  simp only [m4RegexTest, Bool.or_eq_true] at h
  rcases h with h1 | h2
  · obtain ⟨c1, c2⟩ := seqGap_contains _ h1
    exact ⟨c2, c1⟩
  · exact seqGap_contains _ h2

/-! ## Helper lemmas about price extraction (used to separate the placeholder
from section-derived products) -/

theorem matchPriceAt_shape {sym : Char} :
    ∀ {s p : List Char}, matchPriceAt sym s = some p → ∃ t, p = sym :: t := by
  intro s p h
  match s with
  | [] => exact absurd h (by simp [matchPriceAt])
  | c :: rest =>
    simp only [matchPriceAt] at h
    split at h
    · split at h
      · exact absurd h (by simp)
      · rename_i hc _
        injection h with h'
        exact ⟨_, by rw [← h', hc]⟩
    · exact absurd h (by simp)

theorem matchYenAt_shape {s p : List Char} (h : matchYenAt s = some p) :
    (∃ t, p = '¥' :: t) ∨ (∃ t, p = '￥' :: t) := by
  unfold matchYenAt at h
  cases h1 : matchPriceAt '¥' s with
  | some q =>
    rw [h1] at h
    injection h with h'
    exact Or.inl (h' ▸ matchPriceAt_shape h1)
  | none =>
    rw [h1] at h
    exact Or.inr (matchPriceAt_shape h)

theorem scanFor_some {α : Type} {f : List Char → Option α} :
    ∀ {s : List Char} {a : α}, scanFor f s = some a → ∃ s', f s' = some a
  | [], _, h => ⟨[], h⟩
  | c :: t, a, h => by
    simp only [scanFor] at h
    cases hf : f (c :: t) with
    | some b =>
      rw [hf] at h
      exact ⟨c :: t, by rw [hf]; exact h⟩
    | none =>
      rw [hf] at h
      exact scanFor_some h

theorem priceOf_ne_placeholder (sec : List Char) :
    priceOf sec ≠ "Check website for price".toList := by
  have hck : "Check website for price".toList = 'C' :: "heck website for price".toList := rfl
  unfold priceOf
  cases h1 : scanFor matchYenAt sec with
  | some p =>
    obtain ⟨s', hs'⟩ := scanFor_some h1
    rcases matchYenAt_shape hs' with ⟨t, rfl⟩ | ⟨t, rfl⟩ <;>
      · rw [hck]
        intro he
        injection he with ha _
        exact absurd ha (by decide)
  | none =>
    cases h2 : scanFor (matchPriceAt '$') sec with
    | some p =>
      obtain ⟨s', hs'⟩ := scanFor_some h2
      obtain ⟨t, rfl⟩ := matchPriceAt_shape hs'
      rw [hck]
      intro he
      injection he with ha _
      exact absurd ha (by decide)
    | none => decide

theorem structuredProducts_price_ne {x : Product} {html now : List Char}
    (hx : x ∈ structuredProducts html now) :
    x.price ≠ "Check website for price".toList := by
  unfold structuredProducts at hx
  by_cases hm : m4RegexTest (lowerList html) = true
  · rw [if_pos hm] at hx
    obtain ⟨sec, -, rfl⟩ := List.mem_map.mp hx
    exact priceOf_ne_placeholder sec
  · rw [if_neg hm] at hx
    exact absurd hx (by simp)

/-! ## Claim theorems: the Matcher -/

/-- Claim C4: for the body
`<div class="refurb-product"><h3>MacBook Air M4</h3>¥98,000</div>` the Matcher
yields exactly one match result, with title `MacBook Air M4` and price
`¥98,000` (round-trip of the embedded fixture title and price). -/
theorem C4_concrete_roundtrip (now : List Char) :
    availableProducts
      "<div class=\"refurb-product\"><h3>MacBook Air M4</h3>¥98,000</div>".toList now =
      [{ title := "MacBook Air M4".toList, price := "¥98,000".toList, timestamp := now }] := by
  rfl

/-- Claim C5: any body in which the model name and the variant identifier
co-occur within the lookaround window (the step-1 regex, case-insensitive)
produces at least one match result — possibly the placeholder. -/
theorem C5_lookaround_implies_match (html now : List Char)
    (h : m4RegexTest (lowerList html) = true) :
    availableProducts html now ≠ [] := by
  obtain ⟨h1, h2⟩ := m4RegexTest_contains h
  by_cases hs : structuredProducts html now = []
  · simp only [availableProducts]
    rw [h1, h2]
    simp [hs]
  · simp only [availableProducts]
    rw [h1, h2]
    simp only [Bool.and_self, if_true]
    rw [if_neg (by simpa [List.isEmpty_iff] using hs)]
    exact hs

/-- Witness for C5 at the concrete body `m4 macbook air`. -/
theorem C5_lookaround_implies_match_witness :
    m4RegexTest (lowerList "m4 macbook air".toList) = true ∧
    availableProducts "m4 macbook air".toList [] ≠ [] :=
  ⟨by decide, C5_lookaround_implies_match "m4 macbook air".toList [] (by decide)⟩

/-- Claim C6: any body that does not contain both identifiers (model name and
variant identifier, case-insensitively) yields zero match results, and the run
on such a body performs no success-path notification and no webhook call. -/
theorem C6_no_identifiers_no_match (html now nowIso sm : List Char) (env : Env)
    (d e : PostOutcome)
    (h : (containsSub "m4".toList (lowerList html) &&
          containsSub "macbook air".toList (lowerList html)) = false) :
    availableProducts html now = [] ∧
    (checkAppleInventory env (FetchOutcome.response 200 sm html) d e now nowIso).successNotifierInvoked = false ∧
    (checkAppleInventory env (FetchOutcome.response 200 sm html) d e now nowIso).effects = [] := by
  have hm : m4RegexTest (lowerList html) = false := by
    cases hq : m4RegexTest (lowerList html)
    · rfl
    · obtain ⟨h1, h2⟩ := m4RegexTest_contains hq
      rw [h1, h2] at h
      exact absurd h (by simp)
  have hsp : structuredProducts html now = [] := by simp [structuredProducts, hm]
  have hempty : availableProducts html now = [] := by
    simp only [availableProducts]
    rw [h]
    simp [hsp]
  refine ⟨hempty, ?_, ?_⟩ <;>
    simp [checkAppleInventory, fetchUrl, hempty]

/-- Witness for C6 at the concrete body `<p>No refurbished Macs today</p>`. -/
theorem C6_no_identifiers_no_match_witness :
    (containsSub "m4".toList (lowerList "<p>No refurbished Macs today</p>".toList) &&
     containsSub "macbook air".toList (lowerList "<p>No refurbished Macs today</p>".toList)) = false ∧
    availableProducts "<p>No refurbished Macs today</p>".toList [] = [] :=
  ⟨by decide,
   (C6_no_identifiers_no_match "<p>No refurbished Macs today</p>".toList [] [] []
      ⟨none, none, none⟩ (PostOutcome.response 204 []) (PostOutcome.response 204 [])
      (by decide)).1⟩

/-- Counterexample to claim C3 as stated: in the body `MacBook Air\nM4` the
two identifiers never co-occur within the lookaround window (the step-1 regex
fails — `.` does not cross the line terminator), yet the Matcher still
reports the placeholder match result. -/
theorem C3_counterexample :
    m4RegexTest (lowerList "MacBook Air\nM4".toList) = false ∧
    availableProducts "MacBook Air\nM4".toList [] = [placeholderProduct []] := by
  constructor
  · decide
  · rfl

/-- Claim C3 (amended): the Matcher reports the single placeholder match
result exactly when no structured section product was extracted and the body
contains both the model name and the variant identifier as substrings,
case-insensitively, anywhere in the body — not restricted to the lookaround
window. -/
theorem C3_placeholder_iff (html now : List Char) :
    availableProducts html now = [placeholderProduct now] ↔
      (structuredProducts html now = [] ∧
       (containsSub "m4".toList (lowerList html) &&
        containsSub "macbook air".toList (lowerList html)) = true) := by
  constructor
  · intro h
    simp only [availableProducts] at h
    cases hc : (containsSub "m4".toList (lowerList html) &&
        containsSub "macbook air".toList (lowerList html)) with
    | false =>
      rw [hc] at h
      simp only [Bool.false_eq_true, if_false] at h
      have hmem : placeholderProduct now ∈ structuredProducts html now := by
        rw [h]; exact List.mem_singleton_self _
      exact absurd rfl (structuredProducts_price_ne hmem)
    | true =>
      rw [hc] at h
      simp only [if_true] at h
      by_cases hs : structuredProducts html now = []
      · exact ⟨hs, rfl⟩
      · rw [if_neg (by simpa [List.isEmpty_iff] using hs)] at h
        have hmem : placeholderProduct now ∈ structuredProducts html now := by
          rw [h]; exact List.mem_singleton_self _
        exact absurd rfl (structuredProducts_price_ne hmem)
  · rintro ⟨hs, hc⟩
    simp only [availableProducts]
    rw [hc]
    simp [hs]

/-- Claim C9: the structured quoted-string product-title search (`m4Products`)
never contributes to the Matcher's output — the source computes it and never
reads it, so the Matcher equals the Matcher with that search removed. -/
theorem C9_productTitle_search_dead (html now : List Char) :
    availableProducts html now = availableProductsSansProductData html now := rfl

/-! ## Claim theorems: Fetcher, Notifier and run -/

/-- The status code (its decimal rendering) occurs in the fetch error
message. -/
theorem containsSub_httpErrorMsg (status : Nat) (sm : List Char) :
    containsSub (toString status).toList (httpErrorMsg status sm) = true := by
  have h1 : (toString status).toList.isPrefixOf
      ((toString status).toList ++ (": ".toList ++ sm)) = true := by
    rw [List.isPrefixOf_iff_prefix]
    exact List.prefix_append _ _
  have h3 := containsSub_append_left "HTTP ".toList (containsSub_of_isPrefixOf h1)
  simpa [httpErrorMsg, List.append_assoc] using h3

/-- Counterexample to claim C2 as stated: 204 is in the 200 range, yet the
Fetcher fails (the code tests `statusCode !== 200`, not the 2xx range). -/
theorem C2_counterexample :
    (200 ≤ 204 ∧ 204 < 300) ∧
    fetchUrl (FetchOutcome.response 204 "No Content".toList "full body".toList) =
      Except.error (httpErrorMsg 204 "No Content".toList) :=
  ⟨by omega, rfl⟩

/-- Claim C2 (amended): the Fetcher succeeds with the full body exactly when
the status is exactly 200; any other status (2xx included) yields a FetchError
carrying the status code, and a transport failure propagates its cause. -/
theorem C2_fetchUrl_only_200 :
    (∀ sm body, fetchUrl (FetchOutcome.response 200 sm body) = Except.ok body) ∧
    (∀ status sm body, status ≠ 200 →
      fetchUrl (FetchOutcome.response status sm body) =
        Except.error (httpErrorMsg status sm)) ∧
    (∀ m, fetchUrl (FetchOutcome.transportError m) = Except.error m) :=
  ⟨fun _ _ => rfl, fun _ sm body h => by simp [fetchUrl, h], fun _ => rfl⟩

/-- Witness for the amended C2 at status 404. -/
theorem C2_fetchUrl_only_200_witness :
    (404 ≠ 200) ∧
    fetchUrl (FetchOutcome.response 404 [] []) = Except.error (httpErrorMsg 404 []) :=
  ⟨by decide, C2_fetchUrl_only_200.2.1 404 [] [] (by decide)⟩

/-- Claim C7: on a non-2xx response the run goes through the error path: the
success notifier is never invoked, the error notifier is, the process exits 1,
and the error message carries the status code. -/
theorem C7_non2xx_error_path (status : Nat) (sm body now nowIso : List Char)
    (env : Env) (d e : PostOutcome)
    (h : ¬(200 ≤ status ∧ status < 300)) :
    (checkAppleInventory env (FetchOutcome.response status sm body) d e now nowIso).successNotifierInvoked = false ∧
    (checkAppleInventory env (FetchOutcome.response status sm body) d e now nowIso).errorNotifierInvoked = true ∧
    (checkAppleInventory env (FetchOutcome.response status sm body) d e now nowIso).exitCode = 1 ∧
    (checkAppleInventory env (FetchOutcome.response status sm body) d e now nowIso).errorMessage =
      some (httpErrorMsg status sm) ∧
    containsSub (toString status).toList (httpErrorMsg status sm) = true := by
  have hne : status ≠ 200 := by
    intro he
    exact h (by omega)
  refine ⟨?_, ?_, ?_, ?_, containsSub_httpErrorMsg status sm⟩ <;>
    simp [checkAppleInventory, fetchUrl, hne]

/-- Witness for C7 at status 503. -/
theorem C7_non2xx_error_path_witness :
    ¬(200 ≤ 503 ∧ 503 < 300) ∧
    (checkAppleInventory ⟨none, none, none⟩
       (FetchOutcome.response 503 "Service Unavailable".toList [])
       (PostOutcome.response 204 []) (PostOutcome.response 204 []) [] []).exitCode = 1 ∧
    containsSub (toString 503).toList (httpErrorMsg 503 "Service Unavailable".toList) = true :=
  ⟨by omega,
   (C7_non2xx_error_path 503 "Service Unavailable".toList [] [] [] ⟨none, none, none⟩
      (PostOutcome.response 204 []) (PostOutcome.response 204 []) (by omega)).2.2.1,
   (C7_non2xx_error_path 503 "Service Unavailable".toList [] [] [] ⟨none, none, none⟩
      (PostOutcome.response 204 []) (PostOutcome.response 204 []) (by omega)).2.2.2.2⟩

/-- Claim C8: with no notification channel configured, a run performs no
outbound POST on either the success- or the error-notification step, and its
exit status depends only on the fetch/match outcome. -/
theorem C8_no_channels_no_post (f : FetchOutcome) (d e : PostOutcome)
    (now nowIso : List Char) :
    ((checkAppleInventory ⟨none, none, none⟩ f d e now nowIso).effects.all
       (fun x => !x.isPost)) = true ∧
    (checkAppleInventory ⟨none, none, none⟩ f d e now nowIso).exitCode =
      (match fetchUrl f with | Except.ok _ => 0 | Except.error _ => 1) := by
  cases hf : fetchUrl f with
  | error msg => simp [checkAppleInventory, hf, sendErrorNotification]
  | ok html =>
    cases hp : (availableProducts html now).isEmpty with
    | true => simp [checkAppleInventory, hf, hp]
    | false => simp [checkAppleInventory, hf, hp, sendNotification, Effect.isPost]

/-- Claim C10: the email channel is a no-op: it only logs, never POSTs, never
fails, and a run configured with only the email channel performs no outbound
call at all. -/
theorem C10_email_noop (k a : List Char) (products : List Product)
    (f : FetchOutcome) (d e : PostOutcome) (now nowIso : List Char) :
    ((sendEmailNotification products).1.all (fun x => !x.isPost)) = true ∧
    (sendEmailNotification products).2 = Except.ok () ∧
    ((checkAppleInventory ⟨none, some k, some a⟩ f d e now nowIso).effects.all
       (fun x => !x.isPost)) = true := by
  refine ⟨by simp [sendEmailNotification, Effect.isPost], rfl, ?_⟩
  cases hf : fetchUrl f with
  | error msg => simp [checkAppleInventory, hf, sendErrorNotification]
  | ok html =>
    cases hp : (availableProducts html now).isEmpty with
    | true => simp [checkAppleInventory, hf, hp]
    | false =>
      simp [checkAppleInventory, hf, hp, sendNotification, sendEmailNotification,
        Effect.isPost]

/-- Counterexample to claim C1 as stated: two runs that differ only in the
webhook delivery outcome (HTTP 500 vs 204) have different exit status — the
delivery failure is not swallowed. -/
theorem C1_counterexample :
    (checkAppleInventory
       ⟨some "https://discord.com/api/webhooks/1/t".toList, some "k".toList, some "a".toList⟩
       (FetchOutcome.response 200 [] "m4 macbook air".toList)
       (PostOutcome.response 500 []) (PostOutcome.response 204 []) [] []).exitCode = 1 ∧
    (checkAppleInventory
       ⟨some "https://discord.com/api/webhooks/1/t".toList, some "k".toList, some "a".toList⟩
       (FetchOutcome.response 200 [] "m4 macbook air".toList)
       (PostOutcome.response 204 []) (PostOutcome.response 204 []) [] []).exitCode = 0 := by
  exact ⟨rfl, rfl⟩

/-- Claim C1 (amended): a success-path webhook delivery failure — a network
error or a non-2xx response — is logged but its rejection propagates out of
`Promise.all` to the top-level handler: the run takes the error-notification
path and exits with status 1.  The other configured channel is not blocked —
its promise was started before the joint await, so its delivery effect still
occurs. -/
theorem C1_notification_failure_propagates
    (url key addr html now nowIso sm : List Char) (dOut eo : PostOutcome)
    (hne : (availableProducts html now).isEmpty = false)
    (hfail : (∃ status resp, dOut = PostOutcome.response status resp ∧
                (200 ≤ status && status < 300) = false) ∨
             (∃ m, dOut = PostOutcome.netError m)) :
    (checkAppleInventory ⟨some url, some key, some addr⟩
       (FetchOutcome.response 200 sm html) dOut eo now nowIso).exitCode = 1 ∧
    (checkAppleInventory ⟨some url, some key, some addr⟩
       (FetchOutcome.response 200 sm html) dOut eo now nowIso).errorNotifierInvoked = true ∧
    Effect.log emailWouldSendLog ∈
      (checkAppleInventory ⟨some url, some key, some addr⟩
         (FetchOutcome.response 200 sm html) dOut eo now nowIso).effects := by
  rcases hfail with ⟨status, resp, rfl, hst⟩ | ⟨m, rfl⟩
  · refine ⟨?_, ?_, ?_⟩ <;>
      simp [checkAppleInventory, fetchUrl, hne, sendNotification, sendDiscordNotification,
        sendEmailNotification, hst]
  · refine ⟨?_, ?_, ?_⟩ <;>
      simp [checkAppleInventory, fetchUrl, hne, sendNotification, sendDiscordNotification,
        sendEmailNotification]

/-- Witness for the amended C1: matching body, Discord POST answered 500. -/
theorem C1_notification_failure_propagates_witness :
    (availableProducts "m4 macbook air".toList []).isEmpty = false ∧
    (checkAppleInventory
       ⟨some "https://discord.com/api/webhooks/1/t".toList, some "k".toList, some "a".toList⟩
       (FetchOutcome.response 200 [] "m4 macbook air".toList)
       (PostOutcome.response 500 []) (PostOutcome.response 204 []) [] []).errorNotifierInvoked = true :=
  ⟨by decide,
   (C1_notification_failure_propagates "https://discord.com/api/webhooks/1/t".toList
      "k".toList "a".toList "m4 macbook air".toList [] [] []
      (PostOutcome.response 500 []) (PostOutcome.response 204 [])
      (by decide) (Or.inl ⟨500, [], rfl, by decide⟩)).2.1⟩

end AppleInv
